import Mathlib

/-!
Shallow embedding of the eggo cluster controller (controllers package of the
eggops operator): machine allocation, the creation-path reconcile, the
work-item monitor and the deletion pipeline, together with theorems checking
the natural-language specification against them.

Interactions with the Kubernetes API server are modelled by an explicit
environment (`Env`) recording, for each call site, what the store would
answer on this invocation; mutating calls are recorded as store actions.
-/

/-- Result of a store Get/List call: the Go code distinguishes a nil error,
a not-found error (via client.IgnoreNotFound) and any other error. -/
inductive GetRes (α : Type) where
  | found : α → GetRes α
  | notFound : GetRes α
  | errored : String → GetRes α
deriving DecidableEq, Repr

/-- A machine record; only the fields the controller reads (Name, UID). -/
structure Machine where
  mname : String
  uid : String
deriving DecidableEq, Repr

/-- Role usage of a bound machine (eggov1.UsageMaster and friends). -/
inductive Usage where
  | master
  | worker
  | etcd
  | loadbalance
deriving DecidableEq, Repr

/-- Modelled from the spec: eggov1.MachineBinding (API package absent from the
sources). The spec describes the Binding Record as a set of
(Machine identity, role usage) pairs, built by AddMachine; we record the pairs
in insertion order. -/
structure MachineBinding where
  entries : List (Machine × Usage)
deriving DecidableEq, Repr

/-- Scan loop of filterMachines: the first component collects selected
machines, the second the unused ones, the third is foundCnt. A candidate goes
to unused when the quota is already met or it is already bound (for any usage)
in an existing machine binding; otherwise it is selected and counted. -/
def filterLoop (bound : Machine → Bool) (requiredNum : Nat) :
    List Machine → Nat → List Machine × List Machine × Nat
  | [], foundCnt => ([], [], foundCnt)
  | item :: rest, foundCnt =>
    if foundCnt = requiredNum then
      let r := filterLoop bound requiredNum rest foundCnt
      (r.1, item :: r.2.1, r.2.2)
    else if bound item then
      let r := filterLoop bound requiredNum rest foundCnt
      (r.1, item :: r.2.1, r.2.2)
    else
      let r := filterLoop bound requiredNum rest (foundCnt + 1)
      (item :: r.1, r.2.1, r.2.2)

/-- ClusterReconciler.filterMachines. `bound m` stands for the store scan that
finds machine m already recorded under some usage in a live MachineBinding.
Returns (selected, unused) or the error of the source. -/
def filterMachines (bound : Machine → Bool) (number : Int) (machines : List Machine) :
    Except String (List Machine × List Machine) :=
  if number ≤ 0 then .ok ([], machines)
  else
    let requiredNum := number.toNat
    if machines.length < requiredNum then .error "no enough machine for requires"
    else
      let r := filterLoop bound requiredNum machines 0
      if r.2.2 ≠ requiredNum then .error "no enough machine for requires"
      else .ok (r.1, r.2.1)

/-- Per-role machine requirement (eggov1.RequireMachineConfig.Number). -/
structure RequireMachineConfig where
  number : Int
deriving DecidableEq, Repr

/-- The four per-role requirements of a cluster spec, in the order the
allocator consumes them. -/
structure ClusterRequires where
  masterRequire : RequireMachineConfig
  workerRequire : RequireMachineConfig
  etcdRequire : RequireMachineConfig
  loadbalanceRequires : RequireMachineConfig
deriving DecidableEq, Repr

/-- Selection core of prepareMachineBinding: the four filterMachines calls of
steps 1.2 to 1.5, each fed the unused pool of the previous one, and the
AddMachine loops recording each selected machine under its role usage. -/
def selectForBinding (bound : Machine → Bool) (req : ClusterRequires)
    (pool : List Machine) : Except String (List (Machine × Usage)) := do
  let (masterSel, pool1) ← filterMachines bound req.masterRequire.number pool
  let (workerSel, pool2) ← filterMachines bound req.workerRequire.number pool1
  let (etcdSel, pool3) ← filterMachines bound req.etcdRequire.number pool2
  let (lbSel, _) ← filterMachines bound req.loadbalanceRequires.number pool3
  pure (masterSel.map (fun m => (m, Usage.master)) ++
    workerSel.map (fun m => (m, Usage.worker)) ++
    etcdSel.map (fun m => (m, Usage.etcd)) ++
    lbSel.map (fun m => (m, Usage.loadbalance)))

/-- Modelled from the spec: the etcd node derivation of the config rendering
(ConvertClusterToEggoConfig is not among the sources). Spec: a
coordination-store requirement of 0 "defaults to master pool"; "requirement
less than or equal to 0 falls back to reuse" of the master machines. -/
def etcdFallbackNodes (etcdRequire : Int) (etcdSel masterSel : List Machine) :
    List Machine :=
  if etcdRequire ≤ 0 then masterSel else etcdSel

theorem filterLoop_perm (bound : Machine → Bool) (req : Nat) :
    ∀ (l : List Machine) (cnt : Nat),
      ((filterLoop bound req l cnt).1 ++ (filterLoop bound req l cnt).2.1).Perm l := by
  intro l
  induction l with
  | nil => intro cnt; simp [filterLoop]
  | cons item rest ih =>
    intro cnt
    by_cases h1 : cnt = req
    · simpa [filterLoop, h1] using List.Perm.trans List.perm_middle ((ih cnt).cons item)
    · by_cases h2 : bound item
      · simpa [filterLoop, h1, h2] using List.Perm.trans List.perm_middle ((ih cnt).cons item)
      · simpa [filterLoop, h1, h2] using (ih (cnt + 1)).cons item

theorem filterLoop_count_le (bound : Machine → Bool) (req : Nat) :
    ∀ (l : List Machine) (cnt : Nat),
      (filterLoop bound req l cnt).2.2 ≤ cnt + (l.filter (fun m => !bound m)).length := by
  intro l
  induction l with
  | nil => intro cnt; simp [filterLoop]
  | cons item rest ih =>
    intro cnt
    by_cases h1 : cnt = req
    · simp only [filterLoop, if_pos h1]
      refine le_trans (ih cnt) (Nat.add_le_add_left ?_ cnt)
      cases hb : bound item <;> simp [List.filter_cons, hb]
    · by_cases h2 : bound item
      · simp only [filterLoop, if_neg h1, h2, if_true]
        refine le_trans (ih cnt) (le_of_eq ?_)
        simp [List.filter_cons, h2]
      · simp only [filterLoop, if_neg h1, h2]
        refine le_trans (ih (cnt + 1)) (le_of_eq ?_)
        simp only [List.filter_cons, h2, Bool.not_false, if_true, List.length_cons]
        omega

theorem filterMachines_perm (bound : Machine → Bool) (number : Int)
    (machines result unused : List Machine)
    (h : filterMachines bound number machines = .ok (result, unused)) :
    (result ++ unused).Perm machines := by
  unfold filterMachines at h
  by_cases hle : number ≤ 0
  · simp [hle] at h
    simp [h.1, h.2]
  · simp only [hle, if_neg, ite_false] at h
    by_cases hlen : machines.length < number.toNat
    · simp [hlen] at h
    · simp only [hlen, ite_false] at h
      by_cases hcnt : (filterLoop bound number.toNat machines 0).2.2 ≠ number.toNat
      · simp [hcnt] at h
      · simp only [hcnt, ite_false, Except.ok.injEq, Prod.mk.injEq] at h
        obtain ⟨h1, h2⟩ := h
        rw [← h1, ← h2]
        exact filterLoop_perm bound number.toNat machines 0

/-- Status of a Kubernetes condition (v1.ConditionTrue and friends). -/
inductive ConditionStatus where
  | condTrue
  | condFalse
  | condUnknown
deriving DecidableEq, Repr

/-- Type of a batch Job condition; complete and failed are the terminal ones
the controller inspects. -/
inductive JobConditionType where
  | complete
  | failed
  | suspended
  | progressing
deriving DecidableEq, Repr

/-- One entry of job.Status.Conditions. -/
structure JobCondition where
  ctype : JobConditionType
  status : ConditionStatus
  reason : String
deriving DecidableEq, Repr

/-- A batch Job, with the fields the controller reads: name, creation
timestamp, deletion timestamp and status conditions. Timestamps are abstract
naturals. -/
structure Job where
  jname : String
  creationTime : Nat
  deletionTime : Option Nat
  conditions : List JobCondition
deriving DecidableEq, Repr

/-- Loop body of jobIsFinished over job.Status.Conditions: the first condition
whose status is true and whose type is Complete or Failed decides; a true
condition of another type, or a Complete or Failed condition whose status is
not true, is passed over. -/
def jobFinishLoop (jobName : String) : List JobCondition → Bool × Option String
  | [] => (false, none)
  | c :: rest =>
    if c.status = ConditionStatus.condTrue then
      if c.ctype = JobConditionType.complete then (true, none)
      else if c.ctype = JobConditionType.failed then
        (true, some ("job: " ++ jobName ++ " failed: " ++ c.reason))
      else jobFinishLoop jobName rest
    else jobFinishLoop jobName rest

/-- jobIsFinished of the controller: (finished, failure error). -/
def jobIsFinished (job : Job) : Bool × Option String :=
  jobFinishLoop job.jname job.conditions

/-- Secret type (v1.SecretTypeSSHAuth, v1.SecretTypeBasicAuth, or other). -/
inductive SecretType where
  | sshAuth
  | basicAuth
  | otherType
deriving DecidableEq, Repr

/-- A machine login secret; boolean fields record the presence of the data
keys the controller checks. -/
structure Secret where
  sname : String
  stype : SecretType
  hasPrivateKey : Bool
  hasUsername : Bool
  hasPassword : Bool
deriving DecidableEq, Repr

/-- Phase of a PersistentVolumeClaim; the controller only distinguishes
bound from anything else. -/
inductive PVCPhase where
  | bound
  | pending
deriving DecidableEq, Repr

/-- A package persistent volume claim. -/
structure PVC where
  pname : String
  phase : PVCPhase
deriving DecidableEq, Repr

/-- A name/namespace pair of the cluster spec (machineLoginSecret and
packagePersistentVolumeClaim declarations). -/
structure ObjectRefSpec where
  rname : String
  rnamespace : String
deriving DecidableEq, Repr

/-- The cluster spec fields the controller reads. -/
structure ClusterSpec where
  requires : ClusterRequires
  machineLoginSecret : ObjectRefSpec
  packagePersistentVolumeClaim : ObjectRefSpec
deriving DecidableEq, Repr

/-- One entry of cluster.Status.JobHistorys. -/
structure JobHistory where
  hname : String
  startTime : Nat
  finishTime : Option Nat
  message : String
deriving DecidableEq, Repr

/-- cluster.Status: the optional references, the two booleans, the message and
the job history. References are recorded by the referenced object's name. -/
structure ClusterStatus where
  machineBindingRef : Option String
  machineLoginSecretRef : Option String
  packagePersistentVolumeClaimRef : Option String
  configRef : Option String
  jobRef : Option String
  hasCluster : Bool
  deleted : Bool
  message : String
  jobHistorys : List JobHistory
deriving DecidableEq, Repr

/-- A cluster record: name, deletion mark (DeletionTimestamp non-zero),
finalizer list, spec and status. -/
structure Cluster where
  cname : String
  beingDeleted : Bool
  finalizers : List String
  spec : ClusterSpec
  status : ClusterStatus
deriving DecidableEq, Repr

/-- Modelled from the spec: Cluster.IsCreated of the API package (absent from
the sources); the spec gates the cleanup Work Item and the creation path on
the HasCluster boolean. -/
def Cluster.IsCreated (c : Cluster) : Bool := c.status.hasCluster

/-- ClusterFinalizerName constant of the controller. -/
def ClusterFinalizerName : String := "cluster.eggo.isula.org/finalizer"

/-- Modelled from the spec: the namespace constant of the API package (absent
from the sources); only its identity matters. -/
def EggoNamespaceName : String := "eggo-system"

/-- MachineBindingFormat applied to the cluster name. -/
def machineBindingName (c : Cluster) : String := "machinebind-" ++ c.cname

/-- Name of the deploy job (creation path). -/
def createJobName (c : Cluster) : String := c.cname ++ "-create-job"

/-- Name of the cleanup job (deletion path). -/
def deleteJobName (c : Cluster) : String := c.cname ++ "-delete-job"

/-- Modelled from the spec: ClusterConfigMapNameFormat of the API package
(absent from the sources) applied to the cluster name and "cmd-config". -/
def cmdConfigMapName (c : Cluster) : String := c.cname ++ "-cmd-config"

/-- Modelled from the spec: EggoConfigVolumeFormat of the API package (absent
from the sources); the fixed mount path of the config snapshot. -/
def eggoConfigPath (c : Cluster) : String := "/eggo-config-" ++ c.cname

/-- Modelled from the spec: ClusterConfigMapBinaryConfKey of the API package
(absent from the sources). -/
def clusterConfKey : String := "eggo-conf"

/-- Mutating store calls issued by one reconcile invocation, in order. -/
inductive StoreAction where
  | createMB (entries : List (Machine × Usage))
  | deleteMB (mbName : String)
  | createCM (cmName : String)
  | deleteCM (cmName : String)
  | createJobAct (jobName : String) (command : List String) (sshMount : Bool)
  | deleteJobAct (jobName : String) (graceSeconds : Option Int)
  | updateMB (mbName : String)
  | statusUpdate
  | updateCluster
deriving DecidableEq, Repr

/-- ctrl.Result: the Requeue flag and RequeueAfter in seconds. -/
structure RecResult where
  requeue : Bool
  requeueAfterSec : Nat
deriving DecidableEq, Repr

/-- ctrl.Result default value. -/
def noRequeue : RecResult := ⟨false, 0⟩

/-- ctrl.Result with RequeueAfter set to n seconds. -/
def requeueAfter (n : Nat) : RecResult := ⟨false, n⟩

/-- ctrl.Result with Requeue set. -/
def requeueNow : RecResult := ⟨true, 0⟩

/-- Environment of one reconcile invocation: for every store call site, the
answer the API server would give, and for every mutating call whether it
succeeds. machineBound answers the binding scan of filterMachines for a
machine. -/
structure Env where
  labelMachines : Option (List Machine)
  machineBound : Machine → Bool
  getMBByName : GetRes MachineBinding
  getMBByRef : GetRes MachineBinding
  getSecretBySpec : GetRes Secret
  getSecretByRef : GetRes Secret
  getPVCBySpec : GetRes PVC
  getPVCByRef : GetRes PVC
  getCMByName : GetRes Unit
  getCMByRef : GetRes Unit
  getCreateJob : GetRes Job
  getDeleteJob : GetRes Job
  getJobByRef : GetRes Job
  refMBOk : Bool
  refSecretOk : Bool
  refPVCOk : Bool
  refCMOk : Bool
  refJobOk : Bool
  convertOk : Bool
  createMBOk : Bool
  createCMOk : Bool
  createJobOk : Bool
  deleteJobOk : Bool
  updateMBOk : Bool
  statusUpdateOk : Bool
  updateOk : Bool

/-- prepareMachineBinding: label-select the pool, run the four-role selection,
then issue the Create of the machine binding. Returns the mutating calls and
the error. -/
def prepareMachineBinding (env : Env) (c : Cluster) : List StoreAction × Option String :=
  match env.labelMachines with
  | none => ([], some "label select machines failed")
  | some pool =>
    match selectForBinding env.machineBound c.spec.requires pool with
    | .error e => ([], some e)
    | .ok entries =>
      ([StoreAction.createMB entries],
        if env.createMBOk then none else some "create machine binding failed")

/-- prepareSecret: validate namespace, fetch the declared secret, check the
fields its auth kind requires, and set MachineLoginSecretRef. As in the
source, the ssh-auth branch returns without setting the reference. -/
def prepareSecret (env : Env) (c : Cluster) : Cluster × Option String :=
  if c.spec.machineLoginSecret.rnamespace ≠ "" ∧
      c.spec.machineLoginSecret.rnamespace ≠ EggoNamespaceName then
    (c, some "machineLoginSecret namespace must be eggo namespace")
  else
    match env.getSecretBySpec with
    | .errored e => (c, some e)
    | .notFound => (c, some "secret not found")
    | .found secret =>
      if secret.stype = SecretType.sshAuth then
        if secret.hasPrivateKey then (c, none) else (c, some "invalid secret")
      else if secret.stype ≠ SecretType.basicAuth then
        (c, some ("secret " ++ secret.sname ++ " type invalid"))
      else if ¬secret.hasUsername then (c, some "invalid secret")
      else if ¬secret.hasPassword then (c, some "invalid secret")
      else if env.refSecretOk then
        ({ c with status := { c.status with machineLoginSecretRef := some secret.sname } }, none)
      else
        ({ c with status := { c.status with machineLoginSecretRef := none } },
          some "unable to reference to secret")

/-- preparePVCRef: default the namespace, validate it, fetch the claim, check
it is bound, and set PackagePersistentVolumeClaimRef. -/
def preparePVCRef (env : Env) (c : Cluster) : Cluster × Option String :=
  let c :=
    if c.spec.packagePersistentVolumeClaim.rnamespace = "" then
      { c with spec := { c.spec with packagePersistentVolumeClaim :=
        { c.spec.packagePersistentVolumeClaim with rnamespace := EggoNamespaceName } } }
    else c
  if c.spec.packagePersistentVolumeClaim.rnamespace ≠ EggoNamespaceName then
    (c, some "PackagePersistentVolumeClaimRef namespace must be eggo namespace")
  else
    match env.getPVCBySpec with
    | .errored e => (c, some e)
    | .notFound => (c, some "pvc not found")
    | .found pvc =>
      if pvc.phase ≠ PVCPhase.bound then
        (c, some ("persistentVolumeClaim " ++ pvc.pname ++ " is not bound to a PersistentVolume"))
      else if env.refPVCOk then
        ({ c with status := { c.status with packagePersistentVolumeClaimRef := some pvc.pname } },
          none)
      else
        ({ c with status := { c.status with packagePersistentVolumeClaimRef := none } },
          some "unable to reference to persistent volume claim")

/-- prepareEggoConfig: fetch binding and secret, render the config, then
fetch-or-create the configmap and set ConfigRef once it is observed. -/
def prepareEggoConfig (env : Env) (c : Cluster) :
    Cluster × List StoreAction × RecResult × Option String :=
  match env.getMBByRef with
  | .notFound => (c, [], noRequeue, some "machine binding not found")
  | .errored e => (c, [], noRequeue, some e)
  | .found _ =>
    match env.getSecretByRef with
    | .notFound => (c, [], noRequeue, some "secret not found")
    | .errored e => (c, [], noRequeue, some e)
    | .found _ =>
      if ¬env.convertOk then (c, [], noRequeue, some "convert cluster failed")
      else
        match env.getCMByName with
        | .errored e => (c, [], noRequeue, some e)
        | .notFound =>
          (c, [StoreAction.createCM (cmdConfigMapName c)], requeueAfter 2,
            if env.createCMOk then none else some "create configmap failed")
        | .found _ =>
          if env.refCMOk then
            ({ c with status := { c.status with configRef := some (cmdConfigMapName c) } },
              [], noRequeue, none)
          else
            ({ c with status := { c.status with configRef := none } },
              [], requeueAfter 2, some "unable to reference to configmap")

/-- prepareCreateClusterJob: fetch-or-create the deploy job; when the job
already exists only JobRef is set; otherwise the job is built from the secret
and claim and created, mounting the private key for ssh-auth secrets. -/
def prepareCreateClusterJob (env : Env) (c : Cluster) :
    Cluster × List StoreAction × Option String :=
  match env.getCreateJob with
  | .found job =>
    if env.refJobOk then
      ({ c with status := { c.status with jobRef := some job.jname } }, [], none)
    else
      ({ c with status := { c.status with jobRef := none } }, [],
        some "get reference for job failed")
  | .errored e => (c, [], some e)
  | .notFound =>
    match env.getSecretByRef with
    | .notFound => (c, [], some "secret not found")
    | .errored e => (c, [], some e)
    | .found secret =>
      match env.getPVCByRef with
      | .notFound => (c, [], some "pvc not found")
      | .errored e => (c, [], some e)
      | .found _pvc =>
        let cmd := ["eggo", "-d", "deploy", "-f", eggoConfigPath c ++ "/" ++ clusterConfKey]
        (c, [StoreAction.createJobAct (createJobName c) cmd (secret.stype == SecretType.sshAuth)],
          if env.createJobOk then none else some "create job failed")

/-- checkAndLogClusterJob: fetch the job behind JobRef and classify it. A
finished failed job is deleted; when that delete succeeds a history entry with
the failure message is appended and JobRef cleared. A finished successful job
is left alone and nothing is recorded. -/
def checkAndLogClusterJob (env : Env) (c : Cluster) :
    Cluster × List StoreAction × Bool × Option String :=
  match env.getJobByRef with
  | .errored e => (c, [], false, some e)
  | .notFound => (c, [], false, some "job not found")
  | .found job =>
    let fin := jobIsFinished job
    if ¬fin.1 then (c, [], fin.1, fin.2)
    else
      match fin.2 with
      | none => (c, [], fin.1, none)
      | some msg =>
        if env.deleteJobOk then
          ({ c with status := { c.status with
              jobHistorys := c.status.jobHistorys ++
                [⟨job.jname, job.creationTime, job.deletionTime, msg⟩],
              jobRef := none } },
            [StoreAction.deleteJobAct job.jname none], fin.1, some msg)
        else (c, [StoreAction.deleteJobAct job.jname none], fin.1, some msg)

/-- updateMachineBindingStatus: fetch the binding and update every machine
condition to success. -/
def updateMachineBindingStatus (env : Env) (c : Cluster) : List StoreAction × Option String :=
  match env.getMBByRef with
  | .notFound => ([], some "machine binding not found")
  | .errored e => ([], some e)
  | .found _ =>
    ([StoreAction.updateMB (machineBindingName c)],
      if env.updateMBOk then none else some "update machine binding failed")

/-- reconcileCreate: the seven ordered steps of the creation path, each
returning as soon as it acts. -/
def reconcileCreate (env : Env) (c : Cluster) :
    Cluster × List StoreAction × RecResult × Option String :=
  if c.status.machineBindingRef = none then
    match env.getMBByName with
    | .errored e => (c, [], noRequeue, some e)
    | .notFound =>
      let r := prepareMachineBinding env c
      (c, r.1, requeueAfter 2, r.2)
    | .found _ =>
      if env.refMBOk then
        ({ c with status := { c.status with machineBindingRef := some (machineBindingName c) } },
          [], noRequeue, none)
      else
        ({ c with status := { c.status with machineBindingRef := none } },
          [], noRequeue, some "unable to reference to machine binding")
  else if c.status.machineLoginSecretRef = none then
    let r := prepareSecret env c
    (r.1, [], if r.2 = none then noRequeue else requeueAfter 30, r.2)
  else if c.status.packagePersistentVolumeClaimRef = none then
    let r := preparePVCRef env c
    (r.1, [], if r.2 = none then noRequeue else requeueAfter 30, r.2)
  else if c.status.configRef = none then
    prepareEggoConfig env c
  else if c.status.jobRef = none then
    let r := prepareCreateClusterJob env c
    (r.1, r.2.1, requeueAfter 2, r.2.2)
  else
    let r := checkAndLogClusterJob env c
    if ¬r.2.2.1 ∨ r.2.2.2 ≠ none then (r.1, r.2.1, requeueAfter 5, r.2.2.2)
    else
      let u := updateMachineBindingStatus env r.1
      match u.2 with
      | some e => (r.1, r.2.1 ++ u.1, noRequeue, some e)
      | none =>
        ({ r.1 with status := { r.1.status with
            hasCluster := true, message := "create cluster job successfully" } },
          r.2.1 ++ u.1, noRequeue, none)

/-- prepareDeleteClusterJob: fetch-or-create the cleanup job. A finished
cleanup job is deleted and, when that delete succeeds, recorded to the
history with "success" or its failure message; an unfinished one is left
running; an absent one is created from the secret and claim. -/
def prepareDeleteClusterJob (env : Env) (c : Cluster) :
    Cluster × List StoreAction × Bool × Option String :=
  match env.getDeleteJob with
  | .found job =>
    let fin := jobIsFinished job
    if fin.1 then
      let hist : JobHistory :=
        ⟨job.jname, job.creationTime, none,
          match fin.2 with
          | some e => e
          | none => "success"⟩
      if env.deleteJobOk then
        ({ c with status := { c.status with jobHistorys := c.status.jobHistorys ++ [hist] } },
          [StoreAction.deleteJobAct job.jname none], fin.1, fin.2)
      else (c, [StoreAction.deleteJobAct job.jname none], fin.1, fin.2)
    else (c, [], fin.1, fin.2)
  | .errored e => (c, [], false, some e)
  | .notFound =>
    match env.getSecretByRef with
    | .notFound => (c, [], false, some "secret not found")
    | .errored e => (c, [], false, some e)
    | .found secret =>
      match env.getPVCByRef with
      | .notFound => (c, [], false, some "pvc not found")
      | .errored e => (c, [], false, some e)
      | .found _pvc =>
        let cmd := ["eggo", "-d", "cleanup", "-f", eggoConfigPath c ++ "/" ++ clusterConfKey]
        (c, [StoreAction.createJobAct (deleteJobName c) cmd (secret.stype == SecretType.sshAuth)],
          false, if env.createJobOk then none else some "create job failed")

/-- Step 5 of the deletion pipeline: reset the binding and claim references,
mark Deleted and persist the status. -/
def deleteStep5 (env : Env) (c : Cluster) (acts : List StoreAction) :
    Cluster × List StoreAction × RecResult × Option String :=
  let c := { c with status := { c.status with
    machineBindingRef := none, packagePersistentVolumeClaimRef := none, deleted := true } }
  if env.statusUpdateOk then (c, acts ++ [StoreAction.statusUpdate], noRequeue, none)
  else (c, acts ++ [StoreAction.statusUpdate], requeueAfter 5, none)

/-- Step 4 of the deletion pipeline: delete the configmap if it still exists,
else clear ConfigRef and continue. -/
def deleteStep4 (env : Env) (c : Cluster) (acts : List StoreAction) :
    Cluster × List StoreAction × RecResult × Option String :=
  match c.status.configRef with
  | some ref =>
    match env.getCMByRef with
    | .found _ => (c, acts ++ [StoreAction.deleteCM ref], requeueNow, none)
    | _ => deleteStep5 env { c with status := { c.status with configRef := none } } acts
  | none => deleteStep5 env c acts

/-- Step 3 of the deletion pipeline: delete the machine binding if it still
exists, else clear MachineBindingRef and continue. -/
def deleteStep3 (env : Env) (c : Cluster) (acts : List StoreAction) :
    Cluster × List StoreAction × RecResult × Option String :=
  match c.status.machineBindingRef with
  | some ref =>
    match env.getMBByRef with
    | .found _ => (c, acts ++ [StoreAction.deleteMB ref], requeueNow, none)
    | _ => deleteStep4 env { c with status := { c.status with machineBindingRef := none } } acts
  | none => deleteStep4 env c acts

/-- Step 2 of the deletion pipeline: while HasCluster is set, drive the
cleanup job; HasCluster is reset only when the job finished without error. -/
def deleteStep2 (env : Env) (c : Cluster) (acts : List StoreAction) :
    Cluster × List StoreAction × RecResult × Option String :=
  if c.IsCreated then
    let r := prepareDeleteClusterJob env c
    if ¬r.2.2.1 then (r.1, acts ++ r.2.1, requeueAfter 5, none)
    else if r.2.2.2 ≠ none then (r.1, acts ++ r.2.1, requeueAfter 1, none)
    else
      deleteStep3 env { r.1 with status := { r.1.status with hasCluster := false } }
        (acts ++ r.2.1)
  else deleteStep3 env c acts

/-- reconcileDelete: step 1 deletes the running deploy job behind JobRef
(grace period 60 when not finished), requeueing after each observation; once
it is gone the remaining steps run. -/
def reconcileDelete (env : Env) (c : Cluster) :
    Cluster × List StoreAction × RecResult × Option String :=
  match c.status.jobRef with
  | some _ =>
    match env.getJobByRef with
    | .found job =>
      let fin := (jobIsFinished job).1
      (c, [StoreAction.deleteJobAct job.jname (if ¬fin then some 60 else none)],
        requeueAfter 5, none)
    | .errored _ => (c, [], requeueAfter 5, none)
    | .notFound => deleteStep2 env { c with status := { c.status with jobRef := none } } []
  | none => deleteStep2 env c []

/-- reconcile: the creation wrapper; drives reconcileCreate and persists the
status when no error occurred. A cluster that already IsCreated only logs. -/
def reconcileBody (env : Env) (c : Cluster) :
    Cluster × List StoreAction × RecResult × Option String :=
  if ¬c.IsCreated then
    let r := reconcileCreate env c
    match r.2.2.2 with
    | some e => (r.1, r.2.1, r.2.2.1, some e)
    | none =>
      if env.statusUpdateOk then (r.1, r.2.1 ++ [StoreAction.statusUpdate], r.2.2.1, none)
      else (r.1, r.2.1 ++ [StoreAction.statusUpdate], r.2.2.1,
        some "unable to update cluster status")
  else (c, [], noRequeue, none)

/-- Reconcile: fetch the cluster (a not-found error is swallowed), register
the finalizer on a live cluster, run the deletion pipeline and remove the
finalizer on a deleted one, otherwise run the creation path; finally the
deferred Update persists the object unless an error was returned. -/
def reconcileTop (env : Env) (getCluster : GetRes Cluster) :
    Option Cluster × List StoreAction × RecResult × Option String :=
  match getCluster with
  | .errored e => (none, [], noRequeue, some e)
  | .notFound => (none, [], noRequeue, none)
  | .found c =>
    let body : Cluster × List StoreAction × RecResult × Option String :=
      if ¬c.beingDeleted then
        if ¬(c.finalizers.contains ClusterFinalizerName) then
          ({ c with finalizers := c.finalizers ++ [ClusterFinalizerName] }, [], noRequeue, none)
        else reconcileBody env c
      else
        if c.finalizers.contains ClusterFinalizerName then
          let r := reconcileDelete env c
          match r.2.2.2 with
          | some e => (r.1, r.2.1, r.2.2.1, some e)
          | none =>
            ({ r.1 with finalizers := r.1.finalizers.filter (fun f => f ≠ ClusterFinalizerName) },
              r.2.1, r.2.2.1, none)
        else (c, [], noRequeue, none)
    match body.2.2.2 with
    | some e => (some body.1, body.2.1, body.2.2.1, some e)
    | none =>
      if env.updateOk then
        (some body.1, body.2.1 ++ [StoreAction.updateCluster], body.2.2.1, none)
      else
        (some body.1, body.2.1 ++ [StoreAction.updateCluster], body.2.2.1,
          some "unable to update cluster")

theorem filterMachines_insufficient (bound : Machine → Bool) (n : Int) (ms : List Machine)
    (hpos : 0 < n) (hlt : (ms.filter (fun m => !bound m)).length < n.toNat) :
    filterMachines bound n ms = .error "no enough machine for requires" := by
  unfold filterMachines
  rw [if_neg (by omega : ¬ n ≤ 0)]
  by_cases hlen : ms.length < n.toNat
  · rw [if_pos hlen]
  · rw [if_neg hlen]
    have hc := filterLoop_count_le bound n.toNat ms 0
    have hne : (filterLoop bound n.toNat ms 0).2.2 ≠ n.toNat := by omega
    rw [if_pos hne]

/-- Sample machines for the concrete scenarios. -/
def machineA : Machine := ⟨"machine-a", "uid-a"⟩

/-- Second sample machine. -/
def machineB : Machine := ⟨"machine-b", "uid-b"⟩

/-- Third sample machine. -/
def machineC : Machine := ⟨"machine-c", "uid-c"⟩

/-- Environment in which every store read misses, every mutation succeeds and
no machine is recorded as bound; concrete scenarios override single fields. -/
def baseEnv : Env where
  labelMachines := some []
  machineBound := fun _ => false
  getMBByName := .notFound
  getMBByRef := .notFound
  getSecretBySpec := .notFound
  getSecretByRef := .notFound
  getPVCBySpec := .notFound
  getPVCByRef := .notFound
  getCMByName := .notFound
  getCMByRef := .notFound
  getCreateJob := .notFound
  getDeleteJob := .notFound
  getJobByRef := .notFound
  refMBOk := true
  refSecretOk := true
  refPVCOk := true
  refCMOk := true
  refJobOk := true
  convertOk := true
  createMBOk := true
  createCMOk := true
  createJobOk := true
  deleteJobOk := true
  updateMBOk := true
  statusUpdateOk := true
  updateOk := true

/-- Fresh status: no references, no cluster, no history. -/
def baseStatus : ClusterStatus := ⟨none, none, none, none, none, false, false, "", []⟩

/-- Cluster with the given name and role requirements, finalizer registered. -/
def mkCluster (name : String) (req : ClusterRequires) : Cluster :=
  ⟨name, false, [ClusterFinalizerName], ⟨req, ⟨"login-secret", ""⟩, ⟨"pkg-pvc", ""⟩⟩, baseStatus⟩

/-- Scenario A requirements: master 1, worker 2, coordination-store 0,
load-balancer 0. -/
def scenarioARequires : ClusterRequires := ⟨⟨1⟩, ⟨2⟩, ⟨0⟩, ⟨0⟩⟩

/-- Environment of scenario A: a pool of exactly three matching machines. -/
def scenarioAEnv : Env := { baseEnv with labelMachines := some [machineA, machineB, machineC] }

/-- Cluster of scenario A. -/
def scenarioACluster : Cluster := mkCluster "demo" scenarioARequires

theorem map_fst_map_pair (l : List Machine) (u : Usage) :
    List.map (Prod.fst ∘ fun m => (m, u)) l = l := by
  induction l with
  | nil => rfl
  | cons a t ih => simp only [List.map_cons, Function.comp_apply, ih]

/-- C1: a prepareMachineBinding invocation that returns without error ran the
four roles in the order master, worker, etcd, loadbalance, fed each later
role only the unused pool of the earlier one, and the selections recorded in
the created binding are pairwise disjoint, so no machine appears under two
role usages. -/
theorem prepareMachineBinding_roles_disjoint (env : Env) (c : Cluster)
    (pool : List Machine) (hp : env.labelMachines = some pool) (hnd : pool.Nodup)
    (h : (prepareMachineBinding env c).2 = none) :
    ∃ mSel p1 wSel p2 eSel p3 lSel p4,
      filterMachines env.machineBound c.spec.requires.masterRequire.number pool = .ok (mSel, p1) ∧
      filterMachines env.machineBound c.spec.requires.workerRequire.number p1 = .ok (wSel, p2) ∧
      filterMachines env.machineBound c.spec.requires.etcdRequire.number p2 = .ok (eSel, p3) ∧
      filterMachines env.machineBound c.spec.requires.loadbalanceRequires.number p3 = .ok (lSel, p4) ∧
      (prepareMachineBinding env c).1 =
        [StoreAction.createMB (mSel.map (fun m => (m, Usage.master)) ++
          wSel.map (fun m => (m, Usage.worker)) ++
          eSel.map (fun m => (m, Usage.etcd)) ++
          lSel.map (fun m => (m, Usage.loadbalance)))] ∧
      mSel.Disjoint p1 ∧ wSel.Disjoint p2 ∧ eSel.Disjoint p3 ∧
      mSel.Disjoint wSel ∧ mSel.Disjoint eSel ∧ mSel.Disjoint lSel ∧
      wSel.Disjoint eSel ∧ wSel.Disjoint lSel ∧ eSel.Disjoint lSel ∧
      ((mSel.map (fun m => (m, Usage.master)) ++
          wSel.map (fun m => (m, Usage.worker)) ++
          eSel.map (fun m => (m, Usage.etcd)) ++
          lSel.map (fun m => (m, Usage.loadbalance))).map Prod.fst).Nodup := by
  have hpre : prepareMachineBinding env c =
      match selectForBinding env.machineBound c.spec.requires pool with
      | .error e => ([], some e)
      | .ok entries =>
        ([StoreAction.createMB entries],
          if env.createMBOk then none else some "create machine binding failed") := by
    unfold prepareMachineBinding
    rw [hp]
  rw [hpre] at h ⊢
  cases hsel : selectForBinding env.machineBound c.spec.requires pool with
  | error e =>
    rw [hsel] at h
    simp at h
  | ok entries =>
    dsimp only at h ⊢
    unfold selectForBinding at hsel
    cases hm : filterMachines env.machineBound c.spec.requires.masterRequire.number pool with
    | error e => simp [hm, Bind.bind, Except.bind] at hsel
    | ok prM =>
      obtain ⟨mSel, p1⟩ := prM
      cases hw : filterMachines env.machineBound c.spec.requires.workerRequire.number p1 with
      | error e => simp [hm, hw, Bind.bind, Except.bind] at hsel
      | ok prW =>
        obtain ⟨wSel, p2⟩ := prW
        cases he : filterMachines env.machineBound c.spec.requires.etcdRequire.number p2 with
        | error e => simp [hm, hw, he, Bind.bind, Except.bind] at hsel
        | ok prE =>
          obtain ⟨eSel, p3⟩ := prE
          cases hl : filterMachines env.machineBound c.spec.requires.loadbalanceRequires.number p3 with
          | error e => simp [hm, hw, he, hl, Bind.bind, Except.bind] at hsel
          | ok prL =>
            obtain ⟨lSel, p4⟩ := prL
            simp only [hm, hw, he, hl, Bind.bind, Except.bind, pure, Except.pure,
              Except.ok.injEq] at hsel
            have perm1 := filterMachines_perm _ _ _ _ _ hm
            have perm2 := filterMachines_perm _ _ _ _ _ hw
            have perm3 := filterMachines_perm _ _ _ _ _ he
            have perm4 := filterMachines_perm _ _ _ _ _ hl
            have nd1 : (mSel ++ p1).Nodup := perm1.nodup_iff.mpr hnd
            obtain ⟨ndM, ndP1, disjM⟩ := List.nodup_append.mp nd1
            have nd2 : (wSel ++ p2).Nodup := perm2.nodup_iff.mpr ndP1
            obtain ⟨ndW, ndP2, disjW⟩ := List.nodup_append.mp nd2
            have nd3 : (eSel ++ p3).Nodup := perm3.nodup_iff.mpr ndP2
            obtain ⟨ndE, ndP3, disjE⟩ := List.nodup_append.mp nd3
            have nd4 : (lSel ++ p4).Nodup := perm4.nodup_iff.mpr ndP3
            obtain ⟨ndL, _, _⟩ := List.nodup_append.mp nd4
            have subW : wSel ⊆ p1 := fun x hx => perm2.subset (List.mem_append_left _ hx)
            have subE2 : eSel ⊆ p2 := fun x hx => perm3.subset (List.mem_append_left _ hx)
            have subL3 : lSel ⊆ p3 := fun x hx => perm4.subset (List.mem_append_left _ hx)
            have subP2 : p2 ⊆ p1 := fun x hx => perm2.subset (List.mem_append_right _ hx)
            have subP3 : p3 ⊆ p2 := fun x hx => perm3.subset (List.mem_append_right _ hx)
            have subE : eSel ⊆ p1 := fun x hx => subP2 (subE2 hx)
            have subL : lSel ⊆ p1 := fun x hx => subP2 (subP3 (subL3 hx))
            have dMW : mSel.Disjoint wSel := fun _ ha hb => disjM ha (subW hb)
            have dME : mSel.Disjoint eSel := fun _ ha hb => disjM ha (subE hb)
            have dML : mSel.Disjoint lSel := fun _ ha hb => disjM ha (subL hb)
            have dWE : wSel.Disjoint eSel := fun _ ha hb => disjW ha (subE2 hb)
            have dWL : wSel.Disjoint lSel := fun _ ha hb => disjW ha (subP3 (subL3 hb))
            have dEL : eSel.Disjoint lSel := fun _ ha hb => disjE ha (subL3 hb)
            refine ⟨mSel, p1, wSel, p2, eSel, p3, lSel, p4, rfl, hw, he, hl, ?_,
              disjM, disjW, disjE, dMW, dME, dML, dWE, dWL, dEL, ?_⟩
            · rw [← hsel]
            · have ndEL : (eSel ++ lSel).Nodup := ndE.append ndL dEL
              have dW_EL : wSel.Disjoint (eSel ++ lSel) := fun _ ha hb => by
                rcases List.mem_append.mp hb with hb1 | hb2
                · exact dWE ha hb1
                · exact dWL ha hb2
              have ndWEL : (wSel ++ (eSel ++ lSel)).Nodup := ndW.append ndEL dW_EL
              have dM_WEL : mSel.Disjoint (wSel ++ (eSel ++ lSel)) := fun _ ha hb => by
                rcases List.mem_append.mp hb with hb1 | hb2
                · exact dMW ha hb1
                · rcases List.mem_append.mp hb2 with hb3 | hb4
                  · exact dME ha hb3
                  · exact dML ha hb4
              have ndAll : (mSel ++ (wSel ++ (eSel ++ lSel))).Nodup :=
                ndM.append ndWEL dM_WEL
              simpa [List.map_append, map_fst_map_pair, List.append_assoc] using ndAll

theorem prepareMachineBinding_roles_disjoint_witness :
    ([machineA, machineB, machineC] : List Machine).Nodup ∧
    (prepareMachineBinding scenarioAEnv scenarioACluster).2 = none ∧
    ∃ mSel p1 wSel p2 eSel p3 lSel p4,
      filterMachines scenarioAEnv.machineBound
        scenarioACluster.spec.requires.masterRequire.number
        [machineA, machineB, machineC] = Except.ok (mSel, p1) ∧
      filterMachines scenarioAEnv.machineBound
        scenarioACluster.spec.requires.workerRequire.number p1 = Except.ok (wSel, p2) ∧
      filterMachines scenarioAEnv.machineBound
        scenarioACluster.spec.requires.etcdRequire.number p2 = Except.ok (eSel, p3) ∧
      filterMachines scenarioAEnv.machineBound
        scenarioACluster.spec.requires.loadbalanceRequires.number p3 = Except.ok (lSel, p4) ∧
      mSel.Disjoint wSel := by
  refine ⟨by decide, rfl, ?_⟩
  obtain ⟨mSel, p1, wSel, p2, eSel, p3, lSel, p4, h1, h2, h3, h4, _, _, _, _, hmw, _⟩ :=
    prepareMachineBinding_roles_disjoint scenarioAEnv scenarioACluster
      [machineA, machineB, machineC] rfl (by decide) rfl
  exact ⟨mSel, p1, wSel, p2, eSel, p3, lSel, p4, h1, h2, h3, h4, hmw⟩

/-- C2: filterMachines with a positive requirement and fewer eligible (not
already bound) candidates than required fails with the insufficiency error
and returns no partial selection; a role selection failing inside the
allocation aborts the whole prepareMachineBinding with that error and no
binding create is issued; and a failure of any of the four role stages makes
the whole selection fail with that error. -/
theorem filterMachines_insufficient_aborts (bound : Machine → Bool) (n : Int)
    (ms : List Machine) (hpos : 0 < n)
    (hlt : (ms.filter (fun m => !bound m)).length < n.toNat) :
    filterMachines bound n ms = .error "no enough machine for requires" ∧
    (∀ (env : Env) (c : Cluster) (pool : List Machine) (e : String),
      env.labelMachines = some pool →
      selectForBinding env.machineBound c.spec.requires pool = .error e →
      prepareMachineBinding env c = ([], some e)) ∧
    (∀ (bnd : Machine → Bool) (req : ClusterRequires) (pool : List Machine) (e : String),
      (filterMachines bnd req.masterRequire.number pool = .error e →
        selectForBinding bnd req pool = .error e) ∧
      (∀ mSel p1, filterMachines bnd req.masterRequire.number pool = .ok (mSel, p1) →
        filterMachines bnd req.workerRequire.number p1 = .error e →
        selectForBinding bnd req pool = .error e) ∧
      (∀ mSel p1 wSel p2, filterMachines bnd req.masterRequire.number pool = .ok (mSel, p1) →
        filterMachines bnd req.workerRequire.number p1 = .ok (wSel, p2) →
        filterMachines bnd req.etcdRequire.number p2 = .error e →
        selectForBinding bnd req pool = .error e) ∧
      (∀ mSel p1 wSel p2 eSel p3,
        filterMachines bnd req.masterRequire.number pool = .ok (mSel, p1) →
        filterMachines bnd req.workerRequire.number p1 = .ok (wSel, p2) →
        filterMachines bnd req.etcdRequire.number p2 = .ok (eSel, p3) →
        filterMachines bnd req.loadbalanceRequires.number p3 = .error e →
        selectForBinding bnd req pool = .error e)) := by
  refine ⟨filterMachines_insufficient bound n ms hpos hlt, ?_, ?_⟩
  · intro env c pool e h1 h2
    unfold prepareMachineBinding
    rw [h1]
    dsimp only
    rw [h2]
  · intro bnd req pool e
    refine ⟨?_, ?_, ?_, ?_⟩
    · intro hm
      simp [selectForBinding, hm, Bind.bind, Except.bind]
    · intro mSel p1 hm hw
      simp [selectForBinding, hm, hw, Bind.bind, Except.bind]
    · intro mSel p1 wSel p2 hm hw he
      simp [selectForBinding, hm, hw, he, Bind.bind, Except.bind]
    · intro mSel p1 wSel p2 eSel p3 hm hw he hl
      simp [selectForBinding, hm, hw, he, hl, Bind.bind, Except.bind]

theorem filterMachines_insufficient_aborts_witness :
    (0 : Int) < 1 ∧
    (([machineA].filter (fun m => !(fun _ => true) m)).length < (1 : Int).toNat) ∧
    filterMachines (fun _ => true) 1 [machineA] = .error "no enough machine for requires" :=
  ⟨by norm_num, by decide,
    (filterMachines_insufficient_aborts (fun _ => true) 1 [machineA] (by norm_num) (by decide)).1⟩

/-- C6: scenario A. With requirements master 1, worker 2, coordination-store
0, load-balancer 0 over a pool of exactly three matching machines,
prepareMachineBinding succeeds with no error, binding one machine to master
and two to worker, a binding of three entries; and the etcd fallback of the
rendered config counts the master machine for the coordination store since
the requirement is not positive. -/
theorem scenarioA_allocation :
    prepareMachineBinding scenarioAEnv scenarioACluster =
      ([StoreAction.createMB
        [(machineA, Usage.master), (machineB, Usage.worker), (machineC, Usage.worker)]], none) ∧
    [(machineA, Usage.master), (machineB, Usage.worker), (machineC, Usage.worker)].length = 3 ∧
    etcdFallbackNodes scenarioACluster.spec.requires.etcdRequire.number [] [machineA] =
      [machineA] :=
  ⟨rfl, rfl, rfl⟩

/-- First condition carrying a terminal type (Complete or Failed) with status
true; this is the condition the jobIsFinished scan acts on. -/
def firstTerminalCond (conds : List JobCondition) : Option JobCondition :=
  conds.find? (fun c => c.status == ConditionStatus.condTrue &&
    (c.ctype == JobConditionType.complete || c.ctype == JobConditionType.failed))

theorem jobFinishLoop_first_terminal (nm : String) (conds : List JobCondition) :
    (firstTerminalCond conds = none → jobFinishLoop nm conds = (false, none)) ∧
    (∀ c, firstTerminalCond conds = some c →
      (c.ctype = JobConditionType.complete → jobFinishLoop nm conds = (true, none)) ∧
      (c.ctype = JobConditionType.failed →
        jobFinishLoop nm conds = (true, some ("job: " ++ nm ++ " failed: " ++ c.reason)))) := by
  induction conds with
  | nil => exact ⟨fun _ => rfl, fun c hc => by simp [firstTerminalCond] at hc⟩
  | cons a rest ih =>
    by_cases hs : a.status = ConditionStatus.condTrue
    · by_cases hcmp : a.ctype = JobConditionType.complete
      · refine ⟨fun hn => ?_, fun c hc => ?_⟩
        · exfalso
          simp [firstTerminalCond, List.find?_cons, hs, hcmp] at hn
        · have hc2 : a = c := by
            simpa [firstTerminalCond, List.find?_cons, hs, hcmp] using hc
          subst hc2
          refine ⟨fun _ => by simp [jobFinishLoop, hs, hcmp], fun hf => ?_⟩
          rw [hcmp] at hf
          exact absurd hf (by decide)
      · by_cases hfl : a.ctype = JobConditionType.failed
        · refine ⟨fun hn => ?_, fun c hc => ?_⟩
          · exfalso
            simp [firstTerminalCond, List.find?_cons, hs, hfl] at hn
          · have hc2 : a = c := by
              simpa [firstTerminalCond, List.find?_cons, hs, hfl] using hc
            subst hc2
            refine ⟨fun hcm => ?_, fun _ => by simp [jobFinishLoop, hs, hcmp, hfl]⟩
            rw [hfl] at hcm
            exact absurd hcm (by decide)
        · have hskip : firstTerminalCond (a :: rest) = firstTerminalCond rest := by
            simp [firstTerminalCond, List.find?_cons, hs, hcmp, hfl]
          have hloop : jobFinishLoop nm (a :: rest) = jobFinishLoop nm rest := by
            simp [jobFinishLoop, hs, hcmp, hfl]
          rw [hskip, hloop]
          exact ih
    · have hskip : firstTerminalCond (a :: rest) = firstTerminalCond rest := by
        simp [firstTerminalCond, List.find?_cons, hs]
      have hloop : jobFinishLoop nm (a :: rest) = jobFinishLoop nm rest := by
        simp [jobFinishLoop, hs]
      rw [hskip, hloop]
      exact ih

/-- C5 amended: the classifier is decided by the first condition whose status
is true and whose type is terminal: Complete gives (true, nil), Failed gives
(true, an error naming the job and the reason); when no condition has a
terminal type with status true it returns (false, nil) — in particular a
Complete or Failed condition whose status is not true does not count. -/
theorem jobIsFinished_first_terminal (job : Job) :
    (firstTerminalCond job.conditions = none → jobIsFinished job = (false, none)) ∧
    (∀ c, firstTerminalCond job.conditions = some c →
      (c.ctype = JobConditionType.complete → jobIsFinished job = (true, none)) ∧
      (c.ctype = JobConditionType.failed →
        jobIsFinished job = (true, some ("job: " ++ job.jname ++ " failed: " ++ c.reason)))) :=
  jobFinishLoop_first_terminal job.jname job.conditions

/-- Job carrying a single Failed condition with status true and reason
"exit 1". -/
def jobFailedExit1 : Job :=
  ⟨"demo-create-job", 10, none,
    [⟨JobConditionType.failed, ConditionStatus.condTrue, "exit 1"⟩]⟩

theorem jobIsFinished_first_terminal_witness :
    firstTerminalCond jobFailedExit1.conditions =
      some ⟨JobConditionType.failed, ConditionStatus.condTrue, "exit 1"⟩ ∧
    jobIsFinished jobFailedExit1 = (true, some "job: demo-create-job failed: exit 1") :=
  ⟨rfl, ((jobIsFinished_first_terminal jobFailedExit1).2 _ rfl).2 rfl⟩

/-- Job carrying a Failed/true condition before a Complete/true condition. -/
def jobBothConds : Job :=
  ⟨"demo-create-job", 10, none,
    [⟨JobConditionType.failed, ConditionStatus.condTrue, "exit 1"⟩,
     ⟨JobConditionType.complete, ConditionStatus.condTrue, ""⟩]⟩

/-- C5 counterexample: the claim says the classifier returns (true, nil)
whenever some condition has type Complete with status true; on a job that
also carries an earlier Failed/true condition the code returns the failure
instead. -/
theorem jobIsFinished_complete_not_decisive_counterexample :
    (∃ c ∈ jobBothConds.conditions,
      c.ctype = JobConditionType.complete ∧ c.status = ConditionStatus.condTrue) ∧
    jobIsFinished jobBothConds = (true, some "job: demo-create-job failed: exit 1") ∧
    jobIsFinished jobBothConds ≠ (true, none) :=
  ⟨by decide, rfl, by decide⟩

/-- Job carrying a single Complete condition with status true. -/
def jobComplete : Job :=
  ⟨"demo-create-job", 10, none, [⟨JobConditionType.complete, ConditionStatus.condTrue, ""⟩]⟩

/-- Cluster mid-creation: every reference set, deploy job referenced. -/
def monitorCluster : Cluster :=
  { mkCluster "demo" scenarioARequires with status := { baseStatus with
      machineBindingRef := some "machinebind-demo",
      machineLoginSecretRef := some "login-secret",
      packagePersistentVolumeClaimRef := some "pkg-pvc",
      configRef := some "demo-cmd-config",
      jobRef := some "demo-create-job" } }

/-- Environment whose deploy-job fetch returns a successfully finished job. -/
def monitorSuccessEnv : Env := { baseEnv with getJobByRef := .found jobComplete }

/-- C4 counterexample: in the creation path the monitor observes the deploy
job finished (successfully) yet appends no WorkHistory entry and leaves
JobRef set, against the claim that every finished Work Item is recorded. -/
theorem monitor_success_no_history_counterexample :
    (jobIsFinished jobComplete).1 = true ∧
    checkAndLogClusterJob monitorSuccessEnv monitorCluster =
      (monitorCluster, [], true, none) ∧
    (checkAndLogClusterJob monitorSuccessEnv monitorCluster).1.status.jobHistorys = [] ∧
    (checkAndLogClusterJob monitorSuccessEnv monitorCluster).1.status.jobRef =
      some "demo-create-job" :=
  ⟨rfl, rfl, rfl, rfl⟩

/-- C4 amended: in the deletion path every finished cleanup job whose delete
succeeds is recorded to the history with its name, start time and "success"
or the failure message; in the creation path a finished FAILED deploy job
whose delete succeeds is recorded with the failure message, deleted, and
JobRef is cleared so a fresh job can be created on the next reconcile, while
a finished successful deploy job is not recorded at all. -/
theorem monitor_history_on_finish (env : Env) (c : Cluster) :
    (∀ job, env.getDeleteJob = .found job → (jobIsFinished job).1 = true →
      env.deleteJobOk = true →
      prepareDeleteClusterJob env c =
        ({ c with status := { c.status with jobHistorys := c.status.jobHistorys ++
            [⟨job.jname, job.creationTime, none,
              match (jobIsFinished job).2 with
              | some e => e
              | none => "success"⟩] } },
          [StoreAction.deleteJobAct job.jname none], true, (jobIsFinished job).2)) ∧
    (∀ job msg, env.getJobByRef = .found job → jobIsFinished job = (true, some msg) →
      env.deleteJobOk = true →
      checkAndLogClusterJob env c =
        ({ c with status := { c.status with
            jobHistorys := c.status.jobHistorys ++
              [⟨job.jname, job.creationTime, job.deletionTime, msg⟩],
            jobRef := none } },
          [StoreAction.deleteJobAct job.jname none], true, some msg)) ∧
    (∀ job, env.getJobByRef = .found job → jobIsFinished job = (true, none) →
      checkAndLogClusterJob env c = (c, [], true, none)) := by
  refine ⟨?_, ?_, ?_⟩
  · intro job hfound hfin hdel
    unfold prepareDeleteClusterJob
    rw [hfound]
    dsimp only
    rw [if_pos hfin, hdel]
    simp only [if_true, Prod.mk.injEq, and_true, true_and]
    rw [← hfin]
  · intro job msg hfound hfin hdel
    unfold checkAndLogClusterJob
    rw [hfound]
    dsimp only
    rw [hfin]
    dsimp only
    rw [hdel]
    simp
  · intro job hfound hfin
    unfold checkAndLogClusterJob
    rw [hfound]
    dsimp only
    rw [hfin]
    simp

/-- Environment for the monitor witness: a finished successful cleanup job
and a failed deploy job. -/
def monitorMixedEnv : Env :=
  { baseEnv with getDeleteJob := .found jobComplete, getJobByRef := .found jobFailedExit1 }

theorem monitor_history_on_finish_witness :
    prepareDeleteClusterJob monitorMixedEnv (mkCluster "demo" scenarioARequires) =
      ({ mkCluster "demo" scenarioARequires with status := { baseStatus with
          jobHistorys := [⟨"demo-create-job", 10, none, "success"⟩] } },
        [StoreAction.deleteJobAct "demo-create-job" none], true, none) ∧
    checkAndLogClusterJob monitorMixedEnv (mkCluster "demo" scenarioARequires) =
      ({ mkCluster "demo" scenarioARequires with status := { baseStatus with
          jobHistorys :=
            [⟨"demo-create-job", 10, none, "job: demo-create-job failed: exit 1"⟩],
          jobRef := none } },
        [StoreAction.deleteJobAct "demo-create-job" none], true,
        some "job: demo-create-job failed: exit 1") := by
  have h := monitor_history_on_finish monitorMixedEnv (mkCluster "demo" scenarioARequires)
  exact ⟨h.1 jobComplete rfl rfl rfl,
    h.2.1 jobFailedExit1 "job: demo-create-job failed: exit 1" rfl rfl rfl⟩

theorem prepareDeleteClusterJob_cluster (env : Env) (c : Cluster) :
    ∃ hist, (prepareDeleteClusterJob env c).1 =
      { c with status := { c.status with jobHistorys := hist } } := by
  unfold prepareDeleteClusterJob
  cases hg : env.getDeleteJob with
  | errored e => exact ⟨c.status.jobHistorys, rfl⟩
  | notFound =>
    cases env.getSecretByRef with
    | found s => cases env.getPVCByRef <;> exact ⟨c.status.jobHistorys, rfl⟩
    | notFound => exact ⟨c.status.jobHistorys, rfl⟩
    | errored e => exact ⟨c.status.jobHistorys, rfl⟩
  | found job =>
    dsimp only
    split_ifs with hf hd
    · exact ⟨_, rfl⟩
    · exact ⟨c.status.jobHistorys, rfl⟩
    · exact ⟨c.status.jobHistorys, rfl⟩

theorem prepareDeleteClusterJob_hasCluster (env : Env) (c : Cluster) :
    (prepareDeleteClusterJob env c).1.status.hasCluster = c.status.hasCluster := by
  obtain ⟨hist, hh⟩ := prepareDeleteClusterJob_cluster env c
  rw [hh]

theorem prepareDeleteClusterJob_finished (env : Env) (c : Cluster)
    (h : (prepareDeleteClusterJob env c).2.2.1 = true) :
    ∃ job, env.getDeleteJob = .found job ∧ (jobIsFinished job).1 = true ∧
      (jobIsFinished job).2 = (prepareDeleteClusterJob env c).2.2.2 := by
  unfold prepareDeleteClusterJob at h ⊢
  cases hg : env.getDeleteJob with
  | errored e => rw [hg] at h; simp at h
  | notFound =>
    rw [hg] at h
    dsimp only at h
    exfalso
    cases hs : env.getSecretByRef with
    | found s =>
      rw [hs] at h
      cases hp : env.getPVCByRef with
      | found p => rw [hp] at h; simp at h
      | notFound => rw [hp] at h; simp at h
      | errored e2 => rw [hp] at h; simp at h
    | notFound => rw [hs] at h; simp at h
    | errored e2 => rw [hs] at h; simp at h
  | found job =>
    rw [hg] at h
    dsimp only at h ⊢
    split_ifs at h ⊢ with hf hd
    · exact ⟨job, rfl, hf, rfl⟩
    · exact ⟨job, rfl, hf, rfl⟩
    · exact absurd h hf

theorem mem_prepareDeleteClusterJob_createJob (env : Env) (c : Cluster)
    (jn : String) (cmd : List String) (ssh : Bool)
    (h : StoreAction.createJobAct jn cmd ssh ∈ (prepareDeleteClusterJob env c).2.1) :
    env.getDeleteJob = GetRes.notFound := by
  unfold prepareDeleteClusterJob at h
  cases hg : env.getDeleteJob with
  | notFound => rfl
  | errored e => rw [hg] at h; simp at h
  | found job =>
    rw [hg] at h
    dsimp only at h
    split_ifs at h <;> simp at h

theorem mem_deleteStep5_createJob (env : Env) (c : Cluster) (acts : List StoreAction)
    (jn : String) (cmd : List String) (ssh : Bool)
    (h : StoreAction.createJobAct jn cmd ssh ∈ (deleteStep5 env c acts).2.1) :
    StoreAction.createJobAct jn cmd ssh ∈ acts := by
  unfold deleteStep5 at h
  split_ifs at h <;>
    (rcases List.mem_append.mp h with h1 | h2
     · exact h1
     · simp at h2)

theorem mem_deleteStep4_createJob (env : Env) (c : Cluster) (acts : List StoreAction)
    (jn : String) (cmd : List String) (ssh : Bool)
    (h : StoreAction.createJobAct jn cmd ssh ∈ (deleteStep4 env c acts).2.1) :
    StoreAction.createJobAct jn cmd ssh ∈ acts := by
  unfold deleteStep4 at h
  cases hcr : c.status.configRef with
  | none =>
    rw [hcr] at h
    exact mem_deleteStep5_createJob _ _ _ _ _ _ h
  | some ref =>
    rw [hcr] at h
    dsimp only at h
    cases hcm : env.getCMByRef with
    | found u =>
      rw [hcm] at h
      rcases List.mem_append.mp h with h1 | h2
      · exact h1
      · simp at h2
    | notFound =>
      rw [hcm] at h
      exact mem_deleteStep5_createJob _ _ _ _ _ _ h
    | errored e =>
      rw [hcm] at h
      exact mem_deleteStep5_createJob _ _ _ _ _ _ h

theorem mem_deleteStep3_createJob (env : Env) (c : Cluster) (acts : List StoreAction)
    (jn : String) (cmd : List String) (ssh : Bool)
    (h : StoreAction.createJobAct jn cmd ssh ∈ (deleteStep3 env c acts).2.1) :
    StoreAction.createJobAct jn cmd ssh ∈ acts := by
  unfold deleteStep3 at h
  cases hmr : c.status.machineBindingRef with
  | none =>
    rw [hmr] at h
    exact mem_deleteStep4_createJob _ _ _ _ _ _ h
  | some ref =>
    rw [hmr] at h
    dsimp only at h
    cases hmb : env.getMBByRef with
    | found mb =>
      rw [hmb] at h
      rcases List.mem_append.mp h with h1 | h2
      · exact h1
      · simp at h2
    | notFound =>
      rw [hmb] at h
      exact mem_deleteStep4_createJob _ _ _ _ _ _ h
    | errored e =>
      rw [hmb] at h
      exact mem_deleteStep4_createJob _ _ _ _ _ _ h

theorem mem_deleteStep2_createJob (env : Env) (c : Cluster) (acts : List StoreAction)
    (jn : String) (cmd : List String) (ssh : Bool)
    (h : StoreAction.createJobAct jn cmd ssh ∈ (deleteStep2 env c acts).2.1) :
    StoreAction.createJobAct jn cmd ssh ∈ acts ∨ env.getDeleteJob = GetRes.notFound := by
  unfold deleteStep2 at h
  by_cases hic : c.IsCreated = true
  · rw [if_pos hic] at h
    dsimp only at h
    by_cases h1 : (prepareDeleteClusterJob env c).2.2.1 = true
    · by_cases h2 : (prepareDeleteClusterJob env c).2.2.2 = none
      · rw [if_neg (not_not_intro h1), if_neg (not_not_intro h2)] at h
        have h3 := mem_deleteStep3_createJob _ _ _ _ _ _ h
        rcases List.mem_append.mp h3 with ha | hr
        · exact Or.inl ha
        · exact Or.inr (mem_prepareDeleteClusterJob_createJob env c jn cmd ssh hr)
      · rw [if_neg (not_not_intro h1), if_pos h2] at h
        dsimp only at h
        rcases List.mem_append.mp h with ha | hr
        · exact Or.inl ha
        · exact Or.inr (mem_prepareDeleteClusterJob_createJob env c jn cmd ssh hr)
    · rw [if_pos h1] at h
      dsimp only at h
      rcases List.mem_append.mp h with ha | hr
      · exact Or.inl ha
      · exact Or.inr (mem_prepareDeleteClusterJob_createJob env c jn cmd ssh hr)
  · rw [if_neg hic] at h
    exact Or.inl (mem_deleteStep3_createJob _ _ _ _ _ _ h)

theorem deleteStep2_lower_hasCluster (env : Env) (c : Cluster) (acts : List StoreAction)
    (hc : c.status.hasCluster = true)
    (h : (deleteStep2 env c acts).1.status.hasCluster = false) :
    ∃ job, env.getDeleteJob = .found job ∧ jobIsFinished job = (true, none) := by
  unfold deleteStep2 at h
  rw [if_pos (show c.IsCreated = true from hc)] at h
  dsimp only at h
  by_cases h1 : (prepareDeleteClusterJob env c).2.2.1 = true
  · by_cases h2 : (prepareDeleteClusterJob env c).2.2.2 = none
    · obtain ⟨job, hj, hf1, hf2⟩ := prepareDeleteClusterJob_finished env c h1
      refine ⟨job, hj, ?_⟩
      have heta : jobIsFinished job = ((jobIsFinished job).1, (jobIsFinished job).2) := rfl
      rw [heta, hf1, hf2, h2]
    · rw [if_neg (not_not_intro h1), if_pos h2] at h
      dsimp only at h
      rw [prepareDeleteClusterJob_hasCluster env c, hc] at h
      exact absurd h (by simp)
  · rw [if_pos h1] at h
    dsimp only at h
    rw [prepareDeleteClusterJob_hasCluster env c, hc] at h
    exact absurd h (by simp)

/-- C3: while JobRef still names an existing deploy job, reconcileDelete only
deletes that job — with a 60 second grace period when it has not finished,
immediately otherwise — and returns a short (5 s) requeue leaving the cluster
state untouched; a cleanup job is created only once JobRef is cleared or the
deploy job is gone from the store; and HasCluster is lowered only after the
cleanup job is observed finished (successfully). -/
theorem reconcileDelete_deploy_job_first (env : Env) (c : Cluster) :
    (∀ r job, c.status.jobRef = some r → env.getJobByRef = .found job →
      reconcileDelete env c =
        (c, [StoreAction.deleteJobAct job.jname
            (if ¬(jobIsFinished job).1 then some 60 else none)],
          requeueAfter 5, none)) ∧
    (∀ cmd ssh,
      StoreAction.createJobAct (deleteJobName c) cmd ssh ∈ (reconcileDelete env c).2.1 →
      (c.status.jobRef = none ∨ env.getJobByRef = GetRes.notFound) ∧
      env.getDeleteJob = GetRes.notFound) ∧
    (c.status.hasCluster = true → (reconcileDelete env c).1.status.hasCluster = false →
      ∃ job, env.getDeleteJob = .found job ∧ jobIsFinished job = (true, none)) := by
  refine ⟨?_, ?_, ?_⟩
  · intro r job h1 h2
    unfold reconcileDelete
    rw [h1]
    dsimp only
    rw [h2]
  · intro cmd ssh h
    unfold reconcileDelete at h
    cases hjr : c.status.jobRef with
    | none =>
      rw [hjr] at h
      rcases mem_deleteStep2_createJob _ _ _ _ _ _ h with ha | hn
      · simp at ha
      · exact ⟨Or.inl rfl, hn⟩
    | some r =>
      rw [hjr] at h
      dsimp only at h
      cases hgj : env.getJobByRef with
      | found job =>
        rw [hgj] at h
        dsimp only at h
        simp at h
      | errored e =>
        rw [hgj] at h
        simp at h
      | notFound =>
        rw [hgj] at h
        rcases mem_deleteStep2_createJob _ _ _ _ _ _ h with ha | hn
        · simp at ha
        · exact ⟨Or.inr rfl, hn⟩
  · intro hc h
    unfold reconcileDelete at h
    cases hjr : c.status.jobRef with
    | none =>
      rw [hjr] at h
      exact deleteStep2_lower_hasCluster env c [] hc h
    | some r =>
      rw [hjr] at h
      dsimp only at h
      cases hgj : env.getJobByRef with
      | found job =>
        rw [hgj] at h
        dsimp only at h
        rw [hc] at h
        exact absurd h (by simp)
      | errored e =>
        rw [hgj] at h
        dsimp only at h
        rw [hc] at h
        exact absurd h (by simp)
      | notFound =>
        rw [hgj] at h
        dsimp only at h
        exact deleteStep2_lower_hasCluster env
          { c with status := { c.status with jobRef := none } } [] hc h

/-- Deploy job that is still running: no conditions at all. -/
def jobRunning : Job := ⟨"demo-create-job", 10, none, []⟩

/-- Environment in which the referenced deploy job still exists, unfinished. -/
def delEnvW : Env := { baseEnv with getJobByRef := .found jobRunning }

/-- Cluster marked for deletion with a live deploy job reference. -/
def delClusterW : Cluster := { monitorCluster with beingDeleted := true }

theorem reconcileDelete_deploy_job_first_witness :
    reconcileDelete delEnvW delClusterW =
      (delClusterW, [StoreAction.deleteJobAct "demo-create-job" (some 60)],
        requeueAfter 5, none) :=
  (reconcileDelete_deploy_job_first delEnvW delClusterW).1 "demo-create-job" jobRunning rfl rfl

theorem prepareSecret_status (env : Env) (c : Cluster) :
    (prepareSecret env c).1.status.machineBindingRef = c.status.machineBindingRef ∧
    (prepareSecret env c).1.status.packagePersistentVolumeClaimRef =
      c.status.packagePersistentVolumeClaimRef ∧
    (prepareSecret env c).1.status.configRef = c.status.configRef ∧
    (prepareSecret env c).1.status.jobRef = c.status.jobRef := by
  unfold prepareSecret
  cases env.getSecretBySpec <;> dsimp only <;>
    first
      | (split_ifs <;> exact ⟨rfl, rfl, rfl, rfl⟩)
      | exact ⟨rfl, rfl, rfl, rfl⟩

theorem preparePVCRef_status (env : Env) (c : Cluster) :
    (preparePVCRef env c).1.status.machineBindingRef = c.status.machineBindingRef ∧
    (preparePVCRef env c).1.status.machineLoginSecretRef = c.status.machineLoginSecretRef ∧
    (preparePVCRef env c).1.status.configRef = c.status.configRef ∧
    (preparePVCRef env c).1.status.jobRef = c.status.jobRef := by
  unfold preparePVCRef
  dsimp only
  cases env.getPVCBySpec <;> dsimp only <;>
    first
      | (split_ifs <;> exact ⟨rfl, rfl, rfl, rfl⟩)
      | exact ⟨rfl, rfl, rfl, rfl⟩

theorem prepareEggoConfig_status (env : Env) (c : Cluster) :
    (prepareEggoConfig env c).1.status.machineBindingRef = c.status.machineBindingRef ∧
    (prepareEggoConfig env c).1.status.machineLoginSecretRef = c.status.machineLoginSecretRef ∧
    (prepareEggoConfig env c).1.status.packagePersistentVolumeClaimRef =
      c.status.packagePersistentVolumeClaimRef ∧
    (prepareEggoConfig env c).1.status.jobRef = c.status.jobRef := by
  unfold prepareEggoConfig
  cases env.getMBByRef <;> cases env.getSecretByRef <;> cases env.getCMByName <;>
    dsimp only <;>
    first
      | (split_ifs <;> exact ⟨rfl, rfl, rfl, rfl⟩)
      | exact ⟨rfl, rfl, rfl, rfl⟩

theorem prepareCreateClusterJob_status (env : Env) (c : Cluster) :
    (prepareCreateClusterJob env c).1.status.machineBindingRef = c.status.machineBindingRef ∧
    (prepareCreateClusterJob env c).1.status.machineLoginSecretRef =
      c.status.machineLoginSecretRef ∧
    (prepareCreateClusterJob env c).1.status.packagePersistentVolumeClaimRef =
      c.status.packagePersistentVolumeClaimRef ∧
    (prepareCreateClusterJob env c).1.status.configRef = c.status.configRef := by
  unfold prepareCreateClusterJob
  cases env.getCreateJob with
  | found job =>
    dsimp only
    split_ifs <;> exact ⟨rfl, rfl, rfl, rfl⟩
  | errored e => exact ⟨rfl, rfl, rfl, rfl⟩
  | notFound =>
    cases env.getSecretByRef with
    | notFound => exact ⟨rfl, rfl, rfl, rfl⟩
    | errored e => exact ⟨rfl, rfl, rfl, rfl⟩
    | found s =>
      cases env.getPVCByRef with
      | notFound => exact ⟨rfl, rfl, rfl, rfl⟩
      | errored e => exact ⟨rfl, rfl, rfl, rfl⟩
      | found p => exact ⟨rfl, rfl, rfl, rfl⟩

theorem checkAndLogClusterJob_status (env : Env) (c : Cluster) :
    (checkAndLogClusterJob env c).1.status.machineBindingRef = c.status.machineBindingRef ∧
    (checkAndLogClusterJob env c).1.status.machineLoginSecretRef =
      c.status.machineLoginSecretRef ∧
    (checkAndLogClusterJob env c).1.status.packagePersistentVolumeClaimRef =
      c.status.packagePersistentVolumeClaimRef ∧
    (checkAndLogClusterJob env c).1.status.configRef = c.status.configRef := by
  unfold checkAndLogClusterJob
  cases env.getJobByRef with
  | errored e => exact ⟨rfl, rfl, rfl, rfl⟩
  | notFound => exact ⟨rfl, rfl, rfl, rfl⟩
  | found job =>
    dsimp only
    cases (jobIsFinished job).2 <;> dsimp only <;>
      first
        | (split_ifs <;> exact ⟨rfl, rfl, rfl, rfl⟩)
        | exact ⟨rfl, rfl, rfl, rfl⟩

/-- C7 amended: outside the deletion pipeline, the references
MachineBindingRef, MachineLoginSecretRef, PackagePersistentVolumeClaimRef and
ConfigRef are never reset to nil by the creation path once set; JobRef is the
exception — the creation-path monitor clears it after deleting a finished
failed job. -/
theorem reconcileCreate_refs_monotone (env : Env) (c : Cluster) :
    (∀ v, c.status.machineBindingRef = some v →
      (reconcileCreate env c).1.status.machineBindingRef = some v) ∧
    (∀ v, c.status.machineLoginSecretRef = some v →
      (reconcileCreate env c).1.status.machineLoginSecretRef = some v) ∧
    (∀ v, c.status.packagePersistentVolumeClaimRef = some v →
      (reconcileCreate env c).1.status.packagePersistentVolumeClaimRef = some v) ∧
    (∀ v, c.status.configRef = some v →
      (reconcileCreate env c).1.status.configRef = some v) := by
  unfold reconcileCreate
  by_cases h1 : c.status.machineBindingRef = none
  · rw [if_pos h1]
    refine ⟨fun v hv => ?_, fun v hv => ?_, fun v hv => ?_, fun v hv => ?_⟩ <;>
      [skip;
        (cases env.getMBByName <;> dsimp only <;>
          first
            | (split_ifs <;> exact hv)
            | exact hv);
        (cases env.getMBByName <;> dsimp only <;>
          first
            | (split_ifs <;> exact hv)
            | exact hv);
        (cases env.getMBByName <;> dsimp only <;>
          first
            | (split_ifs <;> exact hv)
            | exact hv)]
    · rw [h1] at hv
      exact absurd hv (by simp)
  · rw [if_neg h1]
    by_cases h2 : c.status.machineLoginSecretRef = none
    · rw [if_pos h2]
      dsimp only
      have hs := prepareSecret_status env c
      refine ⟨fun v hv => ?_, fun v hv => ?_, fun v hv => ?_, fun v hv => ?_⟩
      · rw [hs.1]; exact hv
      · rw [h2] at hv
        exact absurd hv (by simp)
      · rw [hs.2.1]; exact hv
      · rw [hs.2.2.1]; exact hv
    · rw [if_neg h2]
      by_cases h3 : c.status.packagePersistentVolumeClaimRef = none
      · rw [if_pos h3]
        dsimp only
        have hs := preparePVCRef_status env c
        refine ⟨fun v hv => ?_, fun v hv => ?_, fun v hv => ?_, fun v hv => ?_⟩
        · rw [hs.1]; exact hv
        · rw [hs.2.1]; exact hv
        · rw [h3] at hv
          exact absurd hv (by simp)
        · rw [hs.2.2.1]; exact hv
      · rw [if_neg h3]
        by_cases h4 : c.status.configRef = none
        · rw [if_pos h4]
          have hs := prepareEggoConfig_status env c
          refine ⟨fun v hv => ?_, fun v hv => ?_, fun v hv => ?_, fun v hv => ?_⟩
          · rw [hs.1]; exact hv
          · rw [hs.2.1]; exact hv
          · rw [hs.2.2.1]; exact hv
          · rw [h4] at hv
            exact absurd hv (by simp)
        · rw [if_neg h4]
          by_cases h5 : c.status.jobRef = none
          · rw [if_pos h5]
            dsimp only
            have hs := prepareCreateClusterJob_status env c
            exact ⟨fun v hv => by rw [hs.1]; exact hv,
              fun v hv => by rw [hs.2.1]; exact hv,
              fun v hv => by rw [hs.2.2.1]; exact hv,
              fun v hv => by rw [hs.2.2.2]; exact hv⟩
          · rw [if_neg h5]
            dsimp only
            have hs := checkAndLogClusterJob_status env c
            by_cases h6 : ¬(checkAndLogClusterJob env c).2.2.1 = true ∨
                (checkAndLogClusterJob env c).2.2.2 ≠ none
            · rw [if_pos h6]
              dsimp only
              exact ⟨fun v hv => by rw [hs.1]; exact hv,
                fun v hv => by rw [hs.2.1]; exact hv,
                fun v hv => by rw [hs.2.2.1]; exact hv,
                fun v hv => by rw [hs.2.2.2]; exact hv⟩
            · rw [if_neg h6]
              cases (updateMachineBindingStatus env (checkAndLogClusterJob env c).1).2 <;>
                dsimp only <;>
                exact ⟨fun v hv => by rw [hs.1]; exact hv,
                  fun v hv => by rw [hs.2.1]; exact hv,
                  fun v hv => by rw [hs.2.2.1]; exact hv,
                  fun v hv => by rw [hs.2.2.2]; exact hv⟩

/-- Environment whose deploy-job fetch returns a finished failed job. -/
def monitorFailEnv : Env := { baseEnv with getJobByRef := .found jobFailedExit1 }

/-- C7 counterexample: JobRef (WorkItemRef) is reset to nil by the creation
path — not the deletion pipeline — when the monitor observes a failed
finished job, against the claim covering all five status references. -/
theorem jobref_cleared_outside_deletion_counterexample :
    monitorCluster.beingDeleted = false ∧
    monitorCluster.status.jobRef = some "demo-create-job" ∧
    (reconcileCreate monitorFailEnv monitorCluster).1.status.jobRef = none :=
  ⟨rfl, rfl, rfl⟩

theorem reconcileCreate_refs_monotone_witness :
    monitorCluster.status.machineBindingRef = some "machinebind-demo" ∧
    (reconcileCreate monitorFailEnv monitorCluster).1.status.machineBindingRef =
      some "machinebind-demo" ∧
    (reconcileCreate monitorFailEnv monitorCluster).1.status.configRef =
      some "demo-cmd-config" := by
  have h := reconcileCreate_refs_monotone monitorFailEnv monitorCluster
  exact ⟨rfl, h.1 "machinebind-demo" rfl, h.2.2.2 "demo-cmd-config" rfl⟩

/-- Cluster at the final step of the deletion pipeline: nothing left but the
secret and claim references. -/
def finalStepCluster : Cluster :=
  { mkCluster "demo" scenarioARequires with
    beingDeleted := true,
    status := { baseStatus with
      machineLoginSecretRef := some "login-secret",
      packagePersistentVolumeClaimRef := some "pkg-pvc" } }

/-- Cluster marked for deletion while a live deploy job reference exists. -/
def delTopCluster : Cluster := delClusterW

/-- C8: at the final step of the deletion pipeline the code sets Deleted,
clears the claim reference and resets MachineBindingRef a second time, but —
against its own "reset secret and pvc" comment and the claim — leaves the
credential (machine login secret) reference set; and the pre-delete hook
(finalizer) is removed by Reconcile after any deletion pass returning a nil
error, here one that merely deleted the running job and requeued, before
Deleted was ever set. -/
theorem deletion_final_step_keeps_secret_ref :
    (reconcileDelete baseEnv finalStepCluster).1.status.deleted = true ∧
    (reconcileDelete baseEnv finalStepCluster).1.status.machineLoginSecretRef =
      some "login-secret" ∧
    (reconcileDelete baseEnv finalStepCluster).1.status.packagePersistentVolumeClaimRef =
      none ∧
    (reconcileDelete baseEnv finalStepCluster).2.1 = [StoreAction.statusUpdate] ∧
    (reconcileTop delEnvW (GetRes.found delTopCluster)).2.2.1 = requeueAfter 5 ∧
    ((reconcileTop delEnvW (GetRes.found delTopCluster)).1.map
      (fun c => c.finalizers.contains ClusterFinalizerName)) = some false ∧
    ((reconcileTop delEnvW (GetRes.found delTopCluster)).1.map
      (fun c => c.status.deleted)) = some false :=
  ⟨rfl, rfl, rfl, rfl, rfl, rfl, rfl⟩

/-- Cluster waiting on its credential: binding bound, secret not yet
validated. -/
def awaitSecretCluster : Cluster :=
  { mkCluster "demo" scenarioARequires with status := { baseStatus with
      machineBindingRef := some "machinebind-demo" } }

/-- C9 counterexample: with CredentialRef nil and the declared secret absent,
the creation path requests the 30 second requeue and leaves the status
unmodified, but — against the claim — it DOES return the (not-found) error
to the caller. -/
theorem secret_absent_error_returned_counterexample :
    (reconcileCreate baseEnv awaitSecretCluster).2.2.2 ≠ none ∧
    (reconcileCreate baseEnv awaitSecretCluster).2.2.1 = requeueAfter 30 ∧
    (reconcileCreate baseEnv awaitSecretCluster).1 = awaitSecretCluster :=
  ⟨by decide, rfl, rfl⟩

/-- C9 amended: when CredentialRef is nil and the declared login credential
does not exist, Reconcile leaves the status unmodified, issues no mutating
call, and returns the 30 second requeue TOGETHER WITH the not-found error
(the error is propagated, not swallowed; the status update is skipped). -/
theorem secret_absent_requeue_amended (env : Env) (c : Cluster)
    (h1 : c.status.machineBindingRef ≠ none)
    (h2 : c.status.machineLoginSecretRef = none)
    (h3 : env.getSecretBySpec = GetRes.notFound)
    (h4 : c.spec.machineLoginSecret.rnamespace = "" ∨
      c.spec.machineLoginSecret.rnamespace = EggoNamespaceName) :
    reconcileCreate env c = (c, [], requeueAfter 30, some "secret not found") ∧
    (c.status.hasCluster = false → c.beingDeleted = false →
      c.finalizers.contains ClusterFinalizerName = true →
      reconcileTop env (.found c) = (some c, [], requeueAfter 30, some "secret not found")) := by
  have hns : ¬(c.spec.machineLoginSecret.rnamespace ≠ "" ∧
      c.spec.machineLoginSecret.rnamespace ≠ EggoNamespaceName) := by
    rcases h4 with h4 | h4 <;> simp [h4]
  have hps : prepareSecret env c = (c, some "secret not found") := by
    unfold prepareSecret
    rw [if_neg hns, h3]
  have hrc : reconcileCreate env c = (c, [], requeueAfter 30, some "secret not found") := by
    unfold reconcileCreate
    rw [if_neg h1, if_pos h2]
    dsimp only
    rw [hps]
    simp
  refine ⟨hrc, fun hc hbd hfin => ?_⟩
  have hbody : reconcileBody env c = (c, [], requeueAfter 30, some "secret not found") := by
    unfold reconcileBody
    rw [if_pos (show ¬c.IsCreated = true by simp [Cluster.IsCreated, hc]), hrc]
  have hmem : ClusterFinalizerName ∈ c.finalizers := by simpa using hfin
  simp [reconcileTop, hbd, hfin, hmem, hbody]

theorem secret_absent_requeue_amended_witness :
    reconcileCreate baseEnv awaitSecretCluster =
      (awaitSecretCluster, [], requeueAfter 30, some "secret not found") ∧
    reconcileTop baseEnv (.found awaitSecretCluster) =
      (some awaitSecretCluster, [], requeueAfter 30, some "secret not found") := by
  have h := secret_absent_requeue_amended baseEnv awaitSecretCluster
    (by decide) rfl rfl (Or.inl rfl)
  exact ⟨h.1, h.2 rfl rfl rfl⟩

/-- C10: a reconcile request naming a cluster record absent from the store
returns the empty result with a nil error (the not-found error is swallowed,
no requeue is requested) and issues no mutating call. -/
theorem reconcileTop_notfound_noop (env : Env) :
    reconcileTop env GetRes.notFound = (none, [], noRequeue, none) := rfl
